import Mathlib

/-!
Verification development for the `iterator_item` generator-desugaring crate.

We shallowly embed the parts of the crate that the properties below are
about:

* the runtime behaviour of the helper macros `gen_try`, `async_gen_try`,
  `async_gen_yield` from `src/lib.rs`, together with the wrapper type
  `IteratorItem` and its `Iterator` implementation (`next` / `size_hint`);
* the `is_try_yield` computation and the size-hint extraction from
  `IteratorItemParse::build` in `iterator_item_macros/src/lib.rs`;
* the body-rewriting visitor (`Visitor` / `BodyVisitor`) from
  `iterator_item_macros/src/lib.rs` and `iterator_item_macros/src/expand.rs`;
* the argument-list parser `parse_fn_args`;
* the `iterator` proc-macro attribute front end;
* the `macrofy` token-stream preprocessor from
  `iterator_item_macros/src/macrofy.rs`.

Generators are modelled as resumption traces (a free-monad style datatype):
a synchronous generator either completes or yields a value and continues.
This matches the `Generator<Return = ()>` protocol that `IteratorItem::next`
drives: `GeneratorState::Yielded(item)` versus `GeneratorState::Complete(())`.
-/

namespace IteratorItemSpec

/-- The type `core::ops::ControlFlow`, as produced by `Try::branch`. -/
inductive CtrlFlow (ρ : Type) (α : Type) where
  | cont (ok : α)
  | brk (residual : ρ)
  deriving Repr, DecidableEq

/-- The type `core::task::Poll`. -/
inductive Poll (α : Type) where
  | ready (a : α)
  | pending
  deriving Repr, DecidableEq

/-- A synchronous generator with yield type `Y` and return type `Unit`,
as a resumption trace: it is either complete, or suspended holding the
yielded value and the rest of the computation.  This is the shallow
embedding of the unstable `Generator<Return = ()>` values produced by the
desugaring of the crate (`resume` peels one constructor). -/
inductive Gen (Y : Type) where
  | done
  | yieldVal (y : Y) (k : Gen Y)
  deriving Repr, DecidableEq

/-- Driving a generator to exhaustion: the list of all values it yields,
in order.  Repeatedly calling `IteratorItem::next` returns `Some` of each
element of this list in order and then `None` forever. -/
def Gen.drive {Y : Type} : Gen Y → List Y
  | .done => []
  | .yieldVal y k => y :: k.drive

/-- The `Try::branch` operation for `Option<α>`: `Some(a)` continues with `a`, `None`
breaks with the residual (`Option<Infallible>`, carried here as `Unit`). -/
def optionBranch {α : Type} : Option α → CtrlFlow Unit α
  | some a => .cont a
  | none => .brk ()

/-- The `FromResidual::from_residual` operation for `Option<β>` from the `Option`
residual: always `None`. -/
def optionFromResidual {β : Type} : Unit → Option β := fun _ => none

/-- The `Try::branch` operation for `Result<α, ε>`: `Ok(a)` continues, `Err(e)` breaks
with the error as the residual. -/
def resultBranch {α ε : Type} : Except ε α → CtrlFlow ε α
  | .ok a => .cont a
  | .error e => .brk e

/-- Semantics of the `gen_try!` macro from `src/lib.rs`:

    match Try::branch($e) {
        ControlFlow::Continue(ok) => ok,
        ControlFlow::Break(err) => { yield FromResidual::from_residual(err); return; }
    }

`branch` is the already-evaluated try-discriminant of the argument,
`fromResidual` is the residual-conversion contract, and `k` is the
continuation of the generator body (what runs with the unwrapped success
value). -/
def genTrySem {α ρ Y : Type} (branch : CtrlFlow ρ α) (fromResidual : ρ → Y)
    (k : α → Gen Y) : Gen Y :=
  match branch with
  | .cont ok => k ok
  | .brk err => .yieldVal (fromResidual err) .done

/-- Semantics of the `async_gen_try!` macro from `src/lib.rs`: identical to
`gen_try!` except that the yielded failure is wrapped in
`core::task::Poll::Ready`. -/
def asyncGenTrySem {α ρ Y : Type} (branch : CtrlFlow ρ α) (fromResidual : ρ → Y)
    (k : α → Gen (Poll Y)) : Gen (Poll Y) :=
  match branch with
  | .cont ok => k ok
  | .brk err => .yieldVal (.ready (fromResidual err)) .done

/-- Modelled from the spec: the `gen_try_bare!` macro is referenced by the
body rewriter (`Visitor::visit_expr_mut`, the `(false, false)` arm) but is
not defined anywhere under `src/`.  Per the table in §4.3 of the spec, in the
non-try-yield modes the rewrite evaluates the try-discriminant and, on
failure-break, terminates the body immediately with a bare return, without
suspending; the failure value is discarded. -/
def genTryBareSem {α ρ Y : Type} (branch : CtrlFlow ρ α) (k : α → Gen Y) :
    Gen Y :=
  match branch with
  | .cont ok => k ok
  | .brk _ => .done

/-- Modelled from the spec: `async_gen_try_bare!` is likewise missing from
`src/`; per the table in §4.3 of the spec it behaves as the synchronous bare
variant (immediate bare return on failure-break, no suspension), the only
difference being that it appears in bodies whose yield type is
`Poll`-wrapped. -/
def asyncGenTryBareSem {α ρ Y : Type} (branch : CtrlFlow ρ α)
    (k : α → Gen (Poll Y)) : Gen (Poll Y) :=
  match branch with
  | .cont ok => k ok
  | .brk _ => .done

/-- Semantics of the `async_gen_yield!` macro from `src/lib.rs`:
`yield core::task::Poll::Ready($e)`. -/
def asyncGenYieldSem {Y : Type} (e : Y) (k : Gen (Poll Y)) : Gen (Poll Y) :=
  .yieldVal (.ready e) k

/-- The `IteratorItem` wrapper from `src/lib.rs::__internal`: holds the
generator and the computed `size_hint` pair. -/
structure IteratorItemW (Y : Type) where
  gen : Gen Y
  size_hint : Nat × Option Nat
  deriving Repr, DecidableEq

namespace IteratorItemW

/-- The `Iterator::next` implementation of `IteratorItem`: resume the generator; a yielded
item becomes `Some(item)`, completion becomes `None`.  State passing is
explicit, so `next` also returns the updated wrapper. -/
def next {Y : Type} (it : IteratorItemW Y) : Option Y × IteratorItemW Y :=
  match it.gen with
  | .done => (none, it)
  | .yieldVal y k => (some y, { it with gen := k })

/-- The `Iterator::size_hint` implementation of `IteratorItem`: returns the stored pair. -/
def sizeHint {Y : Type} (it : IteratorItemW Y) : Nat × Option Nat :=
  it.size_hint

/-- Pulling the wrapper until exhaustion: the list of elements `next`
produces before the first `None`. -/
def collect {Y : Type} (it : IteratorItemW Y) : List Y :=
  it.gen.drive

end IteratorItemW

/-! ## The `macrofy` token-stream preprocessor

Embedding of `iterator_item_macros/src/macrofy.rs`.  Proc-macro token
trees are modelled structurally (identifiers and the invocation marker
carry the data the pass inspects; spans are irrelevant to it and
omitted). -/

/-- Bracket delimiters of a proc-macro `Group`. -/
inductive MDelim where
  | paren
  | brace
  | bracket
  | noDelim
  deriving Repr, DecidableEq

/-- A proc-macro `TokenTree`: identifier, punctuation, literal, or a
delimited group holding a nested stream. -/
inductive MTok where
  | ident (s : String)
  | punct (c : Char)
  | lit (s : String)
  | group (d : MDelim) (stream : List MTok)
  deriving Repr

mutual

/-- Decidable equality for token trees (spelled out because automatic
derivation does not handle the nested stream). -/
def MTok.decEq : (a b : MTok) → Decidable (a = b)
  | .ident a, .ident b =>
      match String.decEq a b with
      | isTrue h => isTrue (by rw [h])
      | isFalse h => isFalse (fun hh => by cases hh; exact h rfl)
  | .punct a, .punct b =>
      match instDecidableEqChar a b with
      | isTrue h => isTrue (by rw [h])
      | isFalse h => isFalse (fun hh => by cases hh; exact h rfl)
  | .lit a, .lit b =>
      match String.decEq a b with
      | isTrue h => isTrue (by rw [h])
      | isFalse h => isFalse (fun hh => by cases hh; exact h rfl)
  | .group d1 g1, .group d2 g2 =>
      match instDecidableEqMDelim d1 d2, MTok.decEqList g1 g2 with
      | isTrue h1, isTrue h2 => isTrue (by rw [h1, h2])
      | isFalse h1, _ => isFalse (fun hh => by cases hh; exact h1 rfl)
      | _, isFalse h2 => isFalse (fun hh => by cases hh; exact h2 rfl)
  | .ident _, .punct _ => isFalse (fun h => MTok.noConfusion h)
  | .ident _, .lit _ => isFalse (fun h => MTok.noConfusion h)
  | .ident _, .group _ _ => isFalse (fun h => MTok.noConfusion h)
  | .punct _, .ident _ => isFalse (fun h => MTok.noConfusion h)
  | .punct _, .lit _ => isFalse (fun h => MTok.noConfusion h)
  | .punct _, .group _ _ => isFalse (fun h => MTok.noConfusion h)
  | .lit _, .ident _ => isFalse (fun h => MTok.noConfusion h)
  | .lit _, .punct _ => isFalse (fun h => MTok.noConfusion h)
  | .lit _, .group _ _ => isFalse (fun h => MTok.noConfusion h)
  | .group _ _, .ident _ => isFalse (fun h => MTok.noConfusion h)
  | .group _ _, .punct _ => isFalse (fun h => MTok.noConfusion h)
  | .group _ _, .lit _ => isFalse (fun h => MTok.noConfusion h)

/-- Decidable equality for token streams. -/
def MTok.decEqList : (xs ys : List MTok) → Decidable (xs = ys)
  | [], [] => isTrue rfl
  | [], _ :: _ => isFalse (fun h => List.noConfusion h)
  | _ :: _, [] => isFalse (fun h => List.noConfusion h)
  | x :: xs, y :: ys =>
      match MTok.decEq x y, MTok.decEqList xs ys with
      | isTrue h1, isTrue h2 => isTrue (by rw [h1, h2])
      | isFalse h1, _ => isFalse (fun hh => by cases hh; exact h1 rfl)
      | _, isFalse h2 => isFalse (fun hh => by cases hh; exact h2 rfl)

end

instance : DecidableEq MTok := MTok.decEq

/-- Function `bang()` of `macrofy.rs`: the synthesized invocation marker `!`. -/
def mBang : MTok := .punct '!'

/-- The `MacrofyState` type: neutral pass-through, or holding a buffered `async`
identifier. -/
inductive MState where
  | passthrough
  | sawAsync (a : String)
  deriving Repr, DecidableEq

mutual

/-- One `MacrofyState::step`: returns the next state and the tokens
pushed to the output queue.  The match arms appear in the order of the source;
in particular the `(SawAsync(a), tok)` flush arm precedes the arm that
enters the `SawAsync` state, and it emits a following group *without*
recursing into it. -/
def macrofyStep (s : MState) (t : MTok) : MState × List MTok :=
  match s, t with
  | .passthrough, .group d g => (.passthrough, [.group d (macrofyList g .passthrough)])
  | .passthrough, .ident i =>
      if i = "gen" then (.passthrough, [.ident i, mBang])
      else if i = "async" then (.sawAsync i, [])
      else (.passthrough, [.ident i])
  | .sawAsync a, .ident i =>
      if i = "gen" then (.passthrough, [.ident "async_gen", mBang])
      else (.passthrough, [.ident a, .ident i])
  | .sawAsync a, t => (.passthrough, [.ident a, t])
  | .passthrough, t => (.passthrough, [t])

/-- The driving loop of `Macrofy::next` / `macrofy`: feed each input token
to `step` from the given state, concatenating the emitted tokens.  When the
inner stream is exhausted (`self.inner.next()?`), iteration simply stops:
a still-buffered `async` is dropped, never flushed. -/
def macrofyList (ts : List MTok) (s : MState) : List MTok :=
  match ts with
  | [] => []
  | t :: rest => (macrofyStep s t).2 ++ macrofyList rest (macrofyStep s t).1

end

/-- Function `macrofy` of `macrofy.rs`: run the machine from the neutral state. -/
def macrofy (ts : List MTok) : List MTok :=
  macrofyList ts .passthrough

/-- The state of the machine after consuming a token list (the output is
discarded).  Used to phrase end-of-stream behaviour. -/
def macrofyStateAfter (ts : List MTok) (s : MState) : MState :=
  match ts with
  | [] => s
  | t :: rest => macrofyStateAfter rest (macrofyStep s t).1

mutual

/-- Holds when neither the identifier `gen` nor the identifier `async`
occurs anywhere in the stream, at any group-nesting depth. -/
def mNoKeyword : List MTok → Bool
  | [] => true
  | t :: rest => mNoKeywordTok t && mNoKeyword rest

/-- Holds when the token is neither of the two keywords and contains
neither inside a nested group. -/
def mNoKeywordTok : MTok → Bool
  | .ident i => !(i = "gen" || i = "async")
  | .group _ g => mNoKeyword g
  | _ => true

end

/-! ## Declared yield types and `is_try_yield`

Embedding of the `syn::Type` shapes inspected by
`IteratorItemParse::build` (`iterator_item_macros/src/lib.rs`). -/

/-- One `syn::PathSegment`: an identifier plus possibly generic
arguments.  The code under study never inspects the arguments, only their
presence is kept. -/
structure PathSeg where
  ident : String
  hasArgs : Bool
  deriving Repr, DecidableEq

/-- The `syn::Type` shapes relevant here.  `path true _` stands for a
`Type::Path` whose `qself` is `Some(..)` (a qualified path); `tuple n`
stands for a tuple type of the given arity (element types are never
inspected by the embedded code); `implTrait` carries the textual bounds of
an `impl Trait` type; `otherTy` stands in for every remaining shape. -/
inductive STy where
  | path (qself : Bool) (segments : List PathSeg)
  | tuple (arity : Nat)
  | implTrait (bounds : List String)
  | otherTy (descr : String)
  deriving Repr, DecidableEq

/-- From `IteratorItemParse::build`: an absent declared yield type defaults to
the empty tuple type `()` before any further processing. -/
def defaultYields (yields : Option STy) : STy :=
  match yields with
  | some ty => ty
  | none => .tuple 0

/-- The `is_try_yield` computation from `IteratorItemParse::build`:

    Type::Path(TypePath { qself: None, ref path }) => {
        let is_try = path.segments.first()
            .map_or(false, |s| s.ident == "Result" || s.ident == "Option");
        path.segments.len() == 1 && is_try
    }
    _ => false
-/
def isTryYield (yields : STy) : Bool :=
  match yields with
  | .path false segs =>
      let is_try :=
        match segs.head? with
        | some s => s.ident = "Result" || s.ident = "Option"
        | none => false
      segs.length = 1 && is_try
  | _ => false

/-- The wording of the claim, stated independently of the code: `is_try_yield`
holds exactly for an unqualified path type with exactly one segment whose
identifier is literally `Result` or `Option` (generic arguments on that
segment permitted); it fails for every other shape, including an absent
yield type. -/
def specIsTryYield (yields : Option STy) : Bool :=
  match yields with
  | some (.path false [seg]) => seg.ident = "Result" || seg.ident = "Option"
  | _ => false

/-! ## Attributes and the size-hint extraction -/

/-- The token argument of an attribute, as far as the size-hint machinery
is concerned: either a literal pair of bounds (like `((10, Some(10))`) or
arbitrary other expression tokens. -/
inductive HintTok where
  | pairLit (lo : Nat) (hi : Option Nat)
  | code (src : String)
  deriving Repr, DecidableEq

/-- The default size-hint expression `quote!((0, None))` from
`IteratorItemParse::build`. -/
def defaultSizeHint : HintTok := .pairLit 0 none

/-- A `syn::Attribute`: its path (as segments) and its argument tokens. -/
structure SynAttr where
  pathSegments : List String
  tokens : HintTok
  deriving Repr, DecidableEq

/-- Accessor `attr.path.get_ident()`: `Some` only for a single-segment path. -/
def attrGetIdent (a : SynAttr) : Option String :=
  match a.pathSegments with
  | [seg] => some seg
  | _ => none

/-- The test applied inside the `retain` closure:
`attr.path.get_ident().map(|a| a.to_string()).as_deref() == Some("size_hint")`. -/
def isSizeHintAttr (a : SynAttr) : Bool :=
  attrGetIdent a = some "size_hint"

/-- The `attributes.retain(..)` loop of `IteratorItemParse::build`: walk
the attribute list in order with the current `final_size_hint` value;
every `size_hint` attribute overwrites the current value and is dropped
from the retained list, every other attribute is kept. -/
def sizeHintRetain (attrs : List SynAttr) (cur : HintTok) :
    List SynAttr × HintTok :=
  match attrs with
  | [] => ([], cur)
  | a :: rest =>
      if isSizeHintAttr a then sizeHintRetain rest a.tokens
      else ((a :: (sizeHintRetain rest cur).1), (sizeHintRetain rest cur).2)

/-- The size-hint portion of `IteratorItemParse::build`: start from
`quote!((0, None))`, let the parsed front-end `size_hint` field (if any)
override it, then run the `retain` loop over the attribute list.  Returns
the retained attributes (re-attached to the emitted function) and the
final size-hint expression. -/
def extractSizeHint (sizeHintField : Option HintTok) (attrs : List SynAttr) :
    List SynAttr × HintTok :=
  let final0 :=
    match sizeHintField with
    | some e => e
    | none => defaultSizeHint
  sizeHintRetain attrs final0

/-! ## The `iterator` proc-macro attribute front end -/

/-- The `syn::ReturnType` shapes. -/
inductive RetTyM where
  | default
  | ty (t : STy)
  deriving Repr, DecidableEq

/-- The fields of a `syn::ItemFn` that the `iterator` attribute reads. -/
structure ItemFnM where
  attrs : List SynAttr
  asyncness : Bool
  ident : String
  output : RetTyM
  deriving Repr, DecidableEq

/-- A `syn::Item`: a function item or anything else. -/
inductive ItemM where
  | fnItem (f : ItemFnM)
  | otherItem (descr : String)
  deriving Repr, DecidableEq

/-- The fields of the `IteratorItemParse` record produced by the
`iterator` attribute that the claims inspect. -/
structure IterParseOut where
  isAsync : Bool
  name : String
  yields : Option STy
  returnTy : Option STy
  attrs : List SynAttr
  deriving Repr, DecidableEq

/-- Holds exactly for `Type::ImplTrait`. -/
def isImplTraitTy : STy → Bool
  | .implTrait _ => true
  | _ => false

/-- The `iterator` proc-macro attribute (`iterator_item_macros/src/lib.rs`):
a non-function item, a function without a declared return type, and a
declared return type that is not an `impl Trait` type all abort the
expansion by panicking (modelled as the error channel, carrying the panic
message); the `iterator` attribute emits no span-attached structured
diagnostic in any of these cases.  An `impl Trait` return type is accepted
and stored verbatim as the `return_ty` of the parsed item, with no
declared yield type. -/
def iteratorFrontEnd (item : ItemM) : Except String IterParseOut :=
  match item with
  | .otherItem _ => .error "other"
  | .fnItem f =>
      match f.output with
      | .default => .error "expected `impl Iterator<Output = Ty>` return type"
      | .ty t =>
          match t with
          | .implTrait bounds =>
              .ok { isAsync := f.asyncness, name := f.ident, yields := none,
                    returnTy := some (.implTrait bounds), attrs := f.attrs }
          | _ => .error "expected `impl Iterator<Output = Ty>` return type"

/-! ## The body-rewriting visitor

Embedding of `Visitor::visit_expr_mut` (`iterator_item_macros/src/lib.rs`;
`BodyVisitor::visit_expr_mut` in `expand.rs` is textually identical).  The
visitor first recurses into all child nodes (`syn::visit_mut::visit_expr_mut`)
and then rewrites the current node.  the default syn traversal descends into
closure bodies (`Expr::Closure`) and into nested items carried by block
statements (`Stmt::Item(Item::Fn(..))`), but not into the token arguments
of macro invocations. -/

/-- Which helper macro a `?` expression is rewritten to. -/
inductive TryKind where
  | asyncGenTry
  | genTry
  | asyncGenTryBare
  | genTryBare
  deriving Repr, DecidableEq

/-- The `(self.is_async, self.is_try_yield)` match in the `Expr::Try` arm
of `Visitor::visit_expr_mut`. -/
def tryMacroChoice (isAsync isTry : Bool) : TryKind :=
  match isAsync, isTry with
  | true, true => .asyncGenTry
  | false, true => .genTry
  | true, false => .asyncGenTryBare
  | false, false => .genTryBare

/-- The macro path each choice expands to (`iterator_item::<name>!`). -/
def TryKind.macroName : TryKind → String
  | .asyncGenTry => "async_gen_try"
  | .genTry => "gen_try"
  | .asyncGenTryBare => "async_gen_try_bare"
  | .genTryBare => "gen_try_bare"

mutual

/-- The `syn::Expr` shapes relevant to the body rewrite, plus generic
leaves.  `macroCallE name arg ctxArg` is the result shape of the
`parse_quote!(iterator_item::name!(arg))` rewrites (`ctxArg` carries the
extra `__stream_ctx` argument of `async_gen_await!`). -/
inductive RExpr where
  | unitE
  | litE (n : Int)
  | pathE (s : String)
  | retE (e : Option RExpr)
  | yieldE (e : Option RExpr)
  | awaitE (base : RExpr)
  | tryE (e : RExpr)
  | closureE (body : RExpr)
  | blockE (stmts : List RStmt)
  | macroCallE (name : String) (arg : RExpr) (ctxArg : Option String)
  deriving Repr

/-- The `syn::Stmt` shapes relevant here: an expression statement, a `let`
with an optional initializer, and a nested `fn` item. -/
inductive RStmt where
  | exprS (e : RExpr)
  | letS (init : Option RExpr)
  | itemFnS (name : String) (body : List RStmt)
  deriving Repr

end

/-- A span-attached structured diagnostic as emitted through
`proc_macro::Diagnostic`: the expression whose span carries it, the error
message, and an optional help note. -/
structure BodyDiag where
  loc : RExpr
  msg : String
  help : Option String
  deriving Repr

/-- The error text of the non-empty-`return` diagnostic. -/
def returnErrMsg : String := "iterator items can\x27t return a non-`()` value"

/-- The help text of the non-empty-`return` diagnostic. -/
def returnHelpMsg : String :=
  "returning in an iterator is only meant for stopping the iterator"

mutual

/-- Method `Visitor::visit_expr_mut`: visit all children first, then rewrite the
node.  Returns the rewritten expression and the diagnostics emitted, in
emission order. -/
def visitExpr (isAsync isTry : Bool) : RExpr → RExpr × List BodyDiag
  | .unitE => (.unitE, [])
  | .litE n => (.litE n, [])
  | .pathE s => (.pathE s, [])
  | .retE e =>
      let r := visitExprOpt isAsync isTry e
      match r.1 with
      | some v => (.retE none, r.2 ++ [⟨v, returnErrMsg, some returnHelpMsg⟩])
      | none => (.retE none, r.2)
  | .yieldE e =>
      let r := visitExprOpt isAsync isTry e
      if isAsync then
        match r.1 with
        | some v => (.macroCallE "async_gen_yield" v none, r.2)
        | none => (.macroCallE "async_gen_yield" .unitE none, r.2)
      else (.yieldE r.1, r.2)
  | .awaitE b =>
      let r := visitExpr isAsync isTry b
      if isAsync then (.macroCallE "async_gen_await" r.1 (some "__stream_ctx"), r.2)
      else (.awaitE r.1, r.2)
  | .tryE e =>
      let r := visitExpr isAsync isTry e
      (.macroCallE (tryMacroChoice isAsync isTry).macroName r.1 none, r.2)
  | .closureE b =>
      let r := visitExpr isAsync isTry b
      (.closureE r.1, r.2)
  | .blockE stmts =>
      let r := visitStmts isAsync isTry stmts
      (.blockE r.1, r.2)
  | .macroCallE n a x => (.macroCallE n a x, [])

/-- Child visit for optional sub-expressions. -/
def visitExprOpt (isAsync isTry : Bool) :
    Option RExpr → Option RExpr × List BodyDiag
  | none => (none, [])
  | some e =>
      let r := visitExpr isAsync isTry e
      (some r.1, r.2)

/-- Method `visit_stmt_mut` (syn default): descends into expression statements,
`let` initializers, and nested `fn` items. -/
def visitStmt (isAsync isTry : Bool) : RStmt → RStmt × List BodyDiag
  | .exprS e =>
      let r := visitExpr isAsync isTry e
      (.exprS r.1, r.2)
  | .letS init =>
      let r := visitExprOpt isAsync isTry init
      (.letS r.1, r.2)
  | .itemFnS n body =>
      let r := visitStmts isAsync isTry body
      (.itemFnS n r.1, r.2)

/-- Method `visit_block_mut` (syn default): visit each statement in order. -/
def visitStmts (isAsync isTry : Bool) : List RStmt → List RStmt × List BodyDiag
  | [] => ([], [])
  | s :: rest =>
      let r1 := visitStmt isAsync isTry s
      let r2 := visitStmts isAsync isTry rest
      (r1.1 :: r2.1, r1.2 ++ r2.2)

end

/-! ## The argument-list parser `parse_fn_args` -/

/-- The pieces the loop of `parse_fn_args` distinguishes in its input:
a `...` token, a `,` separator, a receiver (`self`-style) parameter, or a
typed parameter. -/
inductive ArgEntry where
  | dots
  | comma
  | receiver
  | typed (name : String)
  deriving Repr, DecidableEq

/-- A parsed `syn::FnArg`. -/
inductive ArgM where
  | receiver
  | typed (name : String)
  deriving Repr, DecidableEq

/-- Diagnostic text of the variadic-argument error. -/
def variadicMsg : String := "variadic arguments are not allowed in iterator items"

mutual

/-- The `while !input.is_empty()` loop of `parse_fn_args`.  `hr` is the
`has_receiver` flag, `args` the arguments pushed so far, `diags` the
diagnostics emitted so far.  A `...` token emits a diagnostic and
`continue`s (dropping the token without consuming a following separator);
a bare `,` in argument position makes the `FnArg` parse fail; a second
receiver, or a receiver after any argument, returns a parse error
(aborting the item). -/
def parseFnArgsGo : List ArgEntry → Bool → List ArgM → List String →
    Except String (List ArgM × List String)
  | [], _, args, diags => .ok (args, diags)
  | .dots :: rest, hr, args, diags =>
      parseFnArgsGo rest hr args (diags ++ [variadicMsg])
  | .comma :: _, _, _, _ => .error "expected an argument"
  | .receiver :: rest, hr, args, diags =>
      if hr then .error "unexpected second method receiver"
      else if !args.isEmpty then .error "unexpected method receiver"
      else parseFnArgsAfter rest true (args ++ [.receiver]) diags
  | .typed n :: rest, hr, args, diags =>
      parseFnArgsAfter rest hr (args ++ [.typed n]) diags

/-- After pushing an argument: `if input.is_empty() { break }` then a `,`
is required. -/
def parseFnArgsAfter : List ArgEntry → Bool → List ArgM → List String →
    Except String (List ArgM × List String)
  | [], _, args, diags => .ok (args, diags)
  | .comma :: rest, hr, args, diags => parseFnArgsGo rest hr args diags
  | _ :: _, _, _, _ => .error "expected `,`"

end

/-- Function `parse_fn_args` from `iterator_item_macros/src/lib.rs`: run the loop
with no receiver seen and empty accumulators. -/
def parseFnArgs (input : List ArgEntry) :
    Except String (List ArgM × List String) :=
  parseFnArgsGo input false [] []

/-! ## The try-unwrap scenario programs

The scenario of §8 of the spec: a generator whose body is

    let y = x.take()?; yield y; let y = x.take()?; yield y;

with `x` a mutable `Option` initially holding one value, once in the
try-yield mode (lowered through `gen_try!`) and once in the bare mode
(lowered through the spec-modelled `gen_try_bare!`). -/

/-- Method `Option::take`: returns the held value and leaves `None` behind. -/
def takeOpt {α : Type} (x : Option α) : Option α × Option α := (x, none)

/-- The scenario body in the synchronous try-yield mode: each `?` is
`gen_try!`, each `yield` stays a primitive suspension.  For the body to
yield both the unwrapped successes and the converted failure, the yield
type is `Option Int` and `x : Option (Option Int)`. -/
def tryYieldScenario (x0 : Option (Option Int)) : Gen (Option Int) :=
  let t1 := (takeOpt x0).1
  let x1 := (takeOpt x0).2
  genTrySem (optionBranch t1) optionFromResidual (fun y =>
    .yieldVal y (
      let t2 := (takeOpt x1).1
      genTrySem (optionBranch t2) optionFromResidual (fun y2 =>
        .yieldVal y2 .done)))

/-- The scenario body in the synchronous non-try-yield (bare) mode: each
`?` is `gen_try_bare!`; the yield type is `Int` and `x : Option Int`
(this is the own `early_return` test of the crate). -/
def bareScenario (x0 : Option Int) : Gen Int :=
  let t1 := (takeOpt x0).1
  let x1 := (takeOpt x0).2
  genTryBareSem (optionBranch t1) (fun y =>
    .yieldVal y (
      let t2 := (takeOpt x1).1
      genTryBareSem (optionBranch t2) (fun y2 =>
        .yieldVal y2 .done)))

/-! ## Helper lemmas -/

/-- Running the macrofy machine over a concatenation: the second part is
processed from the state the first part leaves behind. -/
theorem macrofyList_append (ts us : List MTok) (s : MState) :
    macrofyList (ts ++ us) s =
      macrofyList ts s ++ macrofyList us (macrofyStateAfter ts s) := by
  induction ts generalizing s with
  | nil => simp [macrofyList, macrofyStateAfter]
  | cons t rest ih =>
      simp [macrofyList, macrofyStateAfter, ih, List.append_assoc]

/-- On a stream containing neither the `gen` nor the `async` identifier at
any nesting depth, the macrofy machine started in the neutral state is the
identity. -/
theorem macrofyList_noKeyword :
    ∀ ts : List MTok, mNoKeyword ts = true → macrofyList ts .passthrough = ts
  | [], _ => rfl
  | .ident i :: rest, h => by
      have h2 : mNoKeywordTok (.ident i) = true ∧ mNoKeyword rest = true := by
        simpa [mNoKeyword, Bool.and_eq_true] using h
      have hi : ¬ i = "gen" ∧ ¬ i = "async" := by
        have := h2.1; simpa [mNoKeywordTok] using this
      simp [macrofyList, macrofyStep, hi.1, hi.2,
        macrofyList_noKeyword rest h2.2]
  | .punct c :: rest, h => by
      have h2 : mNoKeyword rest = true := by
        simpa [mNoKeyword, mNoKeywordTok] using h
      simp [macrofyList, macrofyStep, macrofyList_noKeyword rest h2]
  | .lit s :: rest, h => by
      have h2 : mNoKeyword rest = true := by
        simpa [mNoKeyword, mNoKeywordTok] using h
      simp [macrofyList, macrofyStep, macrofyList_noKeyword rest h2]
  | .group d g :: rest, h => by
      have h2 : mNoKeyword g = true ∧ mNoKeyword rest = true := by
        simpa [mNoKeyword, mNoKeywordTok, Bool.and_eq_true] using h
      simp [macrofyList, macrofyStep, macrofyList_noKeyword g h2.1,
        macrofyList_noKeyword rest h2.2]

/-- The `retain` loop of the size-hint extraction: the retained attributes
are exactly the non-`size_hint` ones in order, and the final expression is
the tokens of the last `size_hint` attribute, or the incoming value when
there is none. -/
theorem sizeHintRetain_spec (attrs : List SynAttr) (cur : HintTok) :
    (sizeHintRetain attrs cur).1 = attrs.filter (fun a => !(isSizeHintAttr a)) ∧
    (sizeHintRetain attrs cur).2 =
      (((attrs.filter (fun a => isSizeHintAttr a)).getLast?).map
        SynAttr.tokens).getD cur := by
  induction attrs generalizing cur with
  | nil => simp [sizeHintRetain]
  | cons a rest ih =>
      by_cases hA : isSizeHintAttr a = true
      · refine ⟨?_, ?_⟩
        · simp [sizeHintRetain, hA, (ih a.tokens).1]
        · simp only [sizeHintRetain, hA, if_pos, List.filter_cons_of_pos]
          rw [(ih a.tokens).2]
          cases hfl : rest.filter (fun a => isSizeHintAttr a) with
          | nil => simp
          | cons b bs =>
              have hsome : ((b :: bs).getLast?).isSome = true := by
                cases bs <;> simp [List.getLast?]
              obtain ⟨x, hx⟩ := Option.isSome_iff_exists.mp hsome
              simp [hx]
      · refine ⟨?_, ?_⟩
        · simp [sizeHintRetain, hA, (ih cur).1]
        · simp [sizeHintRetain, hA, (ih cur).2]

/-! ## Claim theorems -/

/-- C5 (counterexample): the claim says the `gen` → `gen !` rewrite is
applied inside every nested bracketed group at arbitrary nesting depth.
It is not: a group that immediately follows a buffered `async` is flushed
by the `(SawAsync(a), tok)` arm without recursion, so the `gen` inside the
group of `async { gen }` receives no invocation marker. -/
theorem c5_counterexample :
    macrofy [.ident "async", .group .brace [.ident "gen"]] =
      [.ident "async", .group .brace [.ident "gen"]] ∧
    [MTok.ident "async", .group .brace [.ident "gen"]] ≠
      [.ident "async", .group .brace [.ident "gen", mBang]] := by
  exact ⟨by decide, by decide⟩

/-- C5 (amended): the macrofy preprocessor rewrites bare `gen` to
`gen !`, rewrites `async gen` to the single identifier `async_gen`
followed by `!` with the buffered `async` consumed, recurses into every
bracketed group encountered in the neutral state, flushes a group that
immediately follows a buffered `async` unchanged (without recursing into
it), and passes every other token through unchanged. -/
theorem c5_macrofy_rewrites :
    ∀ (ts g : List MTok) (d : MDelim) (i : String) (c : Char) (l : String),
      macrofyList (.ident "gen" :: ts) .passthrough =
        .ident "gen" :: mBang :: macrofyList ts .passthrough ∧
      macrofyList (.ident "async" :: .ident "gen" :: ts) .passthrough =
        .ident "async_gen" :: mBang :: macrofyList ts .passthrough ∧
      macrofyList (.group d g :: ts) .passthrough =
        .group d (macrofy g) :: macrofyList ts .passthrough ∧
      macrofyList (.ident "async" :: .group d g :: ts) .passthrough =
        .ident "async" :: .group d g :: macrofyList ts .passthrough ∧
      (i ≠ "gen" → i ≠ "async" →
        macrofyList (.ident i :: ts) .passthrough =
          .ident i :: macrofyList ts .passthrough) ∧
      macrofyList (.punct c :: ts) .passthrough =
        .punct c :: macrofyList ts .passthrough ∧
      macrofyList (.lit l :: ts) .passthrough =
        .lit l :: macrofyList ts .passthrough := by
  intro ts g d i c l
  refine ⟨?_, ?_, ?_, ?_, ?_, ?_, ?_⟩
  · simp [macrofyList, macrofyStep]
  · simp [macrofyList, macrofyStep]
  · simp [macrofyList, macrofyStep, macrofy]
  · simp [macrofyList, macrofyStep]
  · intro hg ha
    simp [macrofyList, macrofyStep, hg, ha]
  · simp [macrofyList, macrofyStep]
  · simp [macrofyList, macrofyStep]

/-- C5 witness: the guarded pass-through clause at the identifier `foo`. -/
theorem c5_macrofy_rewrites_witness :
    macrofyList [MTok.ident "foo"] .passthrough = [MTok.ident "foo"] := by
  have h := (c5_macrofy_rewrites [] [] .paren "foo" 'x' "l").2.2.2.2.1
    (by decide) (by decide)
  simpa [macrofyList] using h

/-- C6 (counterexample): macrofy is not idempotent on already-marked
input.  The `(Passthrough, Ident "gen")` arm inserts a marker after every
occurrence of `gen`, including one already followed by the marker, so a
second pass double-inserts: `gen !` becomes `gen ! !`. -/
theorem c6_counterexample :
    macrofy [.ident "gen"] = [.ident "gen", mBang] ∧
    macrofy (macrofy [.ident "gen"]) = [.ident "gen", mBang, mBang] ∧
    macrofy (macrofy [MTok.ident "gen"]) ≠ macrofy [MTok.ident "gen"] := by
  exact ⟨by decide, by decide, by decide⟩

/-- C6 (amended): macrofy double-inserts the marker on already-marked
`gen` (see the counterexample); it is the identity — and hence idempotent
— on every stream that contains neither the `gen` nor the `async`
identifier at any group-nesting depth. -/
theorem c6_macrofy_identity_on_keyword_free :
    ∀ ts : List MTok, mNoKeyword ts = true →
      macrofy ts = ts ∧ macrofy (macrofy ts) = macrofy ts := by
  intro ts h
  have h1 : macrofy ts = ts := macrofyList_noKeyword ts h
  exact ⟨h1, by conv_lhs => rw [h1]⟩

/-- C6 witness: a keyword-free stream with a nested group. -/
theorem c6_macrofy_identity_on_keyword_free_witness :
    mNoKeyword [MTok.ident "foo", .group .paren [.punct '+']] = true ∧
    macrofy [MTok.ident "foo", .group .paren [.punct '+']] =
      [MTok.ident "foo", .group .paren [.punct '+']] :=
  ⟨by decide,
   (c6_macrofy_identity_on_keyword_free
      [MTok.ident "foo", .group .paren [.punct '+']] (by decide)).1⟩

/-- C9 (counterexample): the claim quantifies over every stream whose
final token is a bare `async`.  For `async async` the first `async` is
buffered and the second hits the `(SawAsync(a), tok)` flush arm, so both
are emitted: the final `async` is not omitted. -/
theorem c9_counterexample :
    macrofy [.ident "async", .ident "async"] =
      [.ident "async", .ident "async"] ∧
    (macrofy [MTok.ident "async", MTok.ident "async"]).getLast? =
      some (MTok.ident "async") := by
  exact ⟨by decide, by decide⟩

/-- C9 (amended): when the machine reaches the final `async` in the
neutral state — equivalently, when processing ends in the saw-async state —
the buffered `async` is never flushed: a trailing `async` appended to a
stream that leaves the machine in the neutral state contributes nothing to
the output, and a lone `async` produces an empty output. -/
theorem c9_trailing_async_dropped :
    (∀ ts : List MTok, macrofyStateAfter ts .passthrough = .passthrough →
       macrofy (ts ++ [.ident "async"]) = macrofy ts) ∧
    macrofyList [.ident "async"] .passthrough = [] := by
  refine ⟨?_, by decide⟩
  intro ts h
  show macrofyList (ts ++ [.ident "async"]) .passthrough = macrofyList ts .passthrough
  rw [macrofyList_append, h]
  simp [macrofyList, macrofyStep]

/-- C9 witness: a stream ending in the neutral state, with the trailing
`async` dropped. -/
theorem c9_trailing_async_dropped_witness :
    macrofyStateAfter [MTok.ident "foo"] .passthrough = .passthrough ∧
    macrofy [MTok.ident "foo", MTok.ident "async"] = macrofy [MTok.ident "foo"] := by
  refine ⟨by decide, ?_⟩
  have h := c9_trailing_async_dropped.1 [MTok.ident "foo"] (by decide)
  simpa using h

/-- C1 (counterexample): per the claim, a synchronous try-yield generator
whose body is two `x.take()?; yield` pairs with `x` initially holding one
value should produce exactly one element and then exhaust.  Under
`gen_try!` the second `?` first suspends, yielding the failure converted
via `FromResidual` (`None`), and only then terminates: driving the
generator produces two elements, not one. -/
theorem c1_counterexample :
    (tryYieldScenario (some (some 3))).drive = [some 3, none] ∧
    (tryYieldScenario (some (some 3))).drive.length ≠ 1 := by
  exact ⟨by decide, by decide⟩

/-- C1 (amended): the try-unwrap rewrite obeys the four-mode policy table.
The `Expr::Try` arm dispatches on `(is_async, is_try_yield)` to the four
helper macros.  In both try-yield modes a success-continue produces the
unwrapped value and a failure-break suspends exactly once, yielding the
failure converted via the residual-conversion contract — wrapped in
`Poll::Ready` iff `is_async` — and then terminates the body; in both
non-try-yield modes a failure-break terminates the body immediately
without suspending, discarding the failure.  Consequently the synchronous
try-yield scenario generator produces exactly two elements (the success,
then the converted failure `None`) before exhausting, while the
corresponding bare-mode generator produces exactly one. -/
theorem c1_try_unwrap_policy :
    (tryMacroChoice true true = .asyncGenTry ∧
     tryMacroChoice false true = .genTry ∧
     tryMacroChoice true false = .asyncGenTryBare ∧
     tryMacroChoice false false = .genTryBare) ∧
    (∀ (α ρ Y : Type) (a : α) (fr : ρ → Y) (k : α → Gen Y),
       genTrySem (.cont a) fr k = k a ∧ @genTryBareSem α ρ Y (.cont a) k = k a) ∧
    (∀ (α ρ Y : Type) (a : α) (fr : ρ → Y) (k : α → Gen (Poll Y)),
       asyncGenTrySem (.cont a) fr k = k a ∧
       @asyncGenTryBareSem α ρ Y (.cont a) k = k a) ∧
    (∀ (α ρ Y : Type) (r : ρ) (fr : ρ → Y) (k : α → Gen Y),
       (genTrySem (.brk r) fr k).drive = [fr r] ∧
       (genTryBareSem (.brk r) k).drive = []) ∧
    (∀ (α ρ Y : Type) (r : ρ) (fr : ρ → Y) (k : α → Gen (Poll Y)),
       (asyncGenTrySem (.brk r) fr k).drive = [Poll.ready (fr r)] ∧
       (asyncGenTryBareSem (.brk r) k).drive = []) ∧
    (∀ v : Int,
       (tryYieldScenario (some (some v))).drive = [some v, none] ∧
       (bareScenario (some v)).drive = [v]) := by
  refine ⟨⟨rfl, rfl, rfl, rfl⟩, ?_, ?_, ?_, ?_, ?_⟩
  · exact fun α ρ Y a fr k => ⟨rfl, rfl⟩
  · exact fun α ρ Y a fr k => ⟨rfl, rfl⟩
  · exact fun α ρ Y r fr k => ⟨rfl, rfl⟩
  · exact fun α ρ Y r fr k => ⟨rfl, rfl⟩
  · exact fun v => ⟨rfl, rfl⟩

/-- C2: `is_try_yield` (computed after the absent-yield-type default) is
true exactly when the declared yield type is an unqualified path type with
exactly one segment named literally `Result` or `Option`, generic
arguments permitted; it is false for every other shape, including
qualified paths, multi-segment paths, other names, and an absent yield
type. -/
theorem c2_is_try_yield :
    ∀ y : Option STy, isTryYield (defaultYields y) = specIsTryYield y := by
  intro y
  match y with
  | none => rfl
  | some (.tuple n) => rfl
  | some (.implTrait b) => rfl
  | some (.otherTy d) => rfl
  | some (.path true segs) => rfl
  | some (.path false []) => rfl
  | some (.path false [s]) => rfl
  | some (.path false (s1 :: s2 :: rest)) => rfl

/-- C3: with no `size_hint` annotation (and no front-end override) the
extracted hint is the default `(0, None)`; with `size_hint` annotations
the hint is the argument tokens of the last one (last-wins) and every such
annotation is removed from the retained attribute list; and the
size-hint method of the synchronous wrapper returns the stored pair verbatim,
`next` never changing it. -/
theorem c3_size_hint :
    defaultSizeHint = HintTok.pairLit 0 none ∧
    (∀ attrs : List SynAttr,
      (extractSizeHint none attrs).1 =
        attrs.filter (fun a => !(isSizeHintAttr a)) ∧
      (extractSizeHint none attrs).2 =
        (((attrs.filter (fun a => isSizeHintAttr a)).getLast?).map
          SynAttr.tokens).getD defaultSizeHint) ∧
    (∀ (Y : Type) (it : IteratorItemW Y),
      it.sizeHint = it.size_hint ∧
      ((IteratorItemW.next it).2).sizeHint = it.sizeHint) := by
  refine ⟨rfl, ?_, ?_⟩
  · intro attrs
    exact sizeHintRetain_spec attrs defaultSizeHint
  · intro Y it
    refine ⟨rfl, ?_⟩
    cases it with
    | mk g sh => cases g <;> rfl

/-- C4: a `return <expr>` expression is rewritten to a bare `return` with
the value dropped, emitting exactly one diagnostic located at the (already
child-visited) value expression, with the message and help text of the source;
a bare `return` is left unchanged and emits nothing; the rewrite is total,
so expansion proceeds.  The block clause shows the same behaviour for a
`return` nested in a block statement. -/
theorem c4_return_rewrite :
    ∀ (isAsync isTry : Bool) (e : RExpr),
      visitExpr isAsync isTry (.retE (some e)) =
        (.retE none,
         (visitExpr isAsync isTry e).2 ++
           [⟨(visitExpr isAsync isTry e).1, returnErrMsg, some returnHelpMsg⟩]) ∧
      visitExpr isAsync isTry (.retE none) = (.retE none, []) ∧
      visitExpr isAsync isTry (.blockE [.exprS (.retE (some (.litE 5)))]) =
        (.blockE [.exprS (.retE none)],
         [⟨.litE 5, returnErrMsg, some returnHelpMsg⟩]) := by
  intro isAsync isTry e
  refine ⟨?_, rfl, rfl⟩
  simp [visitExpr, visitExprOpt]

/-- C7 (counterexample): the claim says a second receiver, or a receiver
after a non-receiver parameter, is reported as a diagnostic with the
parse recovering.  `parse_fn_args` instead returns a parse error
(`return Err(..)`), aborting the item: only the variadic case recovers. -/
theorem c7_counterexample :
    parseFnArgs [.receiver, .comma, .receiver] =
      .error "unexpected second method receiver" ∧
    parseFnArgs [.typed "x", .comma, .receiver] =
      .error "unexpected method receiver" := by
  exact ⟨rfl, rfl⟩

/-- C7 (amended): a variadic parameter is reported as a diagnostic and
dropped, with parsing continuing (recovering fully when the variadic is
the final parameter); a second receiver parameter, or a receiver after any
already-parsed parameter, aborts the parse with an error rather than
recovering. -/
theorem c7_arg_diagnostics :
    (∀ (rest : List ArgEntry) (hr : Bool) (args : List ArgM) (ds : List String),
       parseFnArgsGo (.dots :: rest) hr args ds =
         parseFnArgsGo rest hr args (ds ++ [variadicMsg])) ∧
    parseFnArgs [.typed "x", .comma, .dots] =
      .ok ([.typed "x"], [variadicMsg]) ∧
    (∀ (rest : List ArgEntry) (args : List ArgM) (ds : List String),
       parseFnArgsGo (.receiver :: rest) true args ds =
         .error "unexpected second method receiver") ∧
    (∀ (rest : List ArgEntry) (args : List ArgM) (ds : List String),
       args ≠ [] →
         parseFnArgsGo (.receiver :: rest) false args ds =
           .error "unexpected method receiver") := by
  refine ⟨?_, rfl, ?_, ?_⟩
  · intro rest hr args ds
    simp [parseFnArgsGo]
  · intro rest args ds
    simp [parseFnArgsGo]
  · intro rest args ds h
    cases args with
    | nil => exact absurd rfl h
    | cons a as => simp [parseFnArgsGo]

/-- C7 witness: receiver after a typed argument, concretely. -/
theorem c7_arg_diagnostics_witness :
    parseFnArgsGo [ArgEntry.receiver] false [ArgM.typed "x"] [] =
      .error "unexpected method receiver" :=
  c7_arg_diagnostics.2.2.2 [] [ArgM.typed "x"] [] (by decide)

/-- C8: the traversal of the rewriter extends into nested `fn` items and
closure bodies, exactly as the default syn `visit_mut` traversal does: the
statement clause shows the body of a nested item is rewritten with its
diagnostics propagated, the closure clause likewise; the two concrete
clauses show a `return 1` inside a nested `fn` being stripped with its
diagnostic, and a `?` inside a closure being rewritten to `gen_try!`. -/
theorem c8_nested_traversal :
    ∀ (isAsync isTry : Bool) (n : String) (body : List RStmt) (e : RExpr),
      visitStmt isAsync isTry (.itemFnS n body) =
        (.itemFnS n (visitStmts isAsync isTry body).1,
         (visitStmts isAsync isTry body).2) ∧
      visitExpr isAsync isTry (.closureE e) =
        (.closureE (visitExpr isAsync isTry e).1,
         (visitExpr isAsync isTry e).2) ∧
      visitStmt true true (.itemFnS "helper" [.exprS (.retE (some (.litE 1)))]) =
        (.itemFnS "helper" [.exprS (.retE none)],
         [⟨.litE 1, returnErrMsg, some returnHelpMsg⟩]) ∧
      visitExpr false true (.closureE (.tryE (.pathE "x"))) =
        (.closureE (.macroCallE "gen_try" (.pathE "x") none), []) := by
  intro isAsync isTry n body e
  exact ⟨rfl, rfl, rfl, rfl⟩

/-- C10: the `iterator` attribute front end aborts by panicking (modelled
as the error channel carrying the panic message, with no span-attached
diagnostic emitted) when the item is not a function, when the function has
no declared return type, and when the declared return type is not an
`impl Trait` type; an `impl Trait` return type is accepted and passed
through verbatim as the emitted return type. -/
theorem c10_iterator_attr :
    (∀ d : String, iteratorFrontEnd (.otherItem d) = .error "other") ∧
    (∀ f : ItemFnM, f.output = .default →
       iteratorFrontEnd (.fnItem f) =
         .error "expected `impl Iterator<Output = Ty>` return type") ∧
    (∀ (f : ItemFnM) (t : STy), f.output = .ty t → isImplTraitTy t = false →
       iteratorFrontEnd (.fnItem f) =
         .error "expected `impl Iterator<Output = Ty>` return type") ∧
    (∀ (f : ItemFnM) (bounds : List String),
       f.output = .ty (.implTrait bounds) →
         iteratorFrontEnd (.fnItem f) =
           .ok { isAsync := f.asyncness, name := f.ident, yields := none,
                 returnTy := some (.implTrait bounds), attrs := f.attrs }) := by
  refine ⟨fun d => rfl, ?_, ?_, ?_⟩
  · intro f h
    simp [iteratorFrontEnd, h]
  · intro f t ht himpl
    cases t with
    | implTrait b => simp [isImplTraitTy] at himpl
    | path q segs => simp [iteratorFrontEnd, ht]
    | tuple n => simp [iteratorFrontEnd, ht]
    | otherTy d => simp [iteratorFrontEnd, ht]
  · intro f bounds h
    simp [iteratorFrontEnd, h]

/-- C10 witness: the three panic shapes and the accepting shape at
concrete items. -/
theorem c10_iterator_attr_witness :
    iteratorFrontEnd (.otherItem "struct") = .error "other" ∧
    iteratorFrontEnd (.fnItem { attrs := [], asyncness := false, ident := "f",
                                output := .default }) =
      .error "expected `impl Iterator<Output = Ty>` return type" ∧
    iteratorFrontEnd (.fnItem { attrs := [], asyncness := false, ident := "g",
                                output := .ty (.tuple 0) }) =
      .error "expected `impl Iterator<Output = Ty>` return type" ∧
    iteratorFrontEnd (.fnItem { attrs := [], asyncness := true, ident := "h",
                                output := .ty (.implTrait ["Iterator"]) }) =
      .ok { isAsync := true, name := "h", yields := none,
            returnTy := some (.implTrait ["Iterator"]), attrs := [] } :=
  ⟨c10_iterator_attr.1 "struct",
   c10_iterator_attr.2.1 _ rfl,
   c10_iterator_attr.2.2.1 _ (.tuple 0) rfl rfl,
   c10_iterator_attr.2.2.2 _ ["Iterator"] rfl⟩

end IteratorItemSpec
